import Mathlib

/-!
Verification of the field-extraction pipeline of the iCIMS job-posting
scraper (scrape_job.py).  The extractors are embedded shallowly: a DOM
element is represented by its raw text, a locator that fails to resolve is
represented by none or by an empty result list, parsed JSON-LD values by an
inductive Json type, and Python dictionaries by association lists with
insert-or-update semantics (insertion order preserved, as in CPython).
-/

set_option maxRecDepth 100000

namespace Scrape

/-- Membership of a character in a string, modelling the Python test
c in s on a string s. -/
def charIn (c : Char) (s : String) : Bool := s.data.contains c

/-- Boolean test that the first list is an initial segment of the second. -/
def leadsWith : List Char → List Char → Bool
  | [], _ => true
  | _ :: _, [] => false
  | a :: as, b :: bs => a == b && leadsWith as bs

/-- Boolean substring test on character lists. -/
def occursIn (needle : List Char) : List Char → Bool
  | [] => leadsWith needle []
  | c :: rest => leadsWith needle (c :: rest) || occursIn needle rest

/-- Python substring test needle in hay on strings. -/
def containsSub (hay needle : String) : Bool := occursIn needle.data hay.data

/-- Whitespace class stripped by the Python strip() method (ASCII part). -/
def isSpace (c : Char) : Bool :=
  c == ' ' || c == '\t' || c == '\n' || c == '\r' || c == '\x0b' || c == '\x0c'

/-- Python text.strip(): whitespace removed from both ends. -/
def pyTrim (s : String) : String :=
  String.mk (((s.data.dropWhile isSpace).reverse.dropWhile isSpace).reverse)

/-- Python text.lower() (ASCII letters, which is what the scraper needs). -/
def pyLower (s : String) : String := String.mk (s.data.map Char.toLower)

/-- Remainder of the second list after removing the first as an initial
segment, when it is one. -/
def stripPre : List Char → List Char → Option (List Char)
  | [], l => some l
  | _ :: _, [] => none
  | a :: as, b :: bs => if a == b then stripPre as bs else none

/-- Fuelled splitting of a character list on each non-overlapping leftmost
occurrence of a non-empty separator; the fuel, at least the length of the
input, only forces structural termination. -/
def splitCharsF (sep : List Char) : Nat → List Char → List Char → List (List Char)
  | _, [], acc => [acc.reverse]
  | 0, l, acc => [acc.reverse ++ l]
  | fuel + 1, c :: rest, acc =>
    match stripPre sep (c :: rest) with
    | some rem => acc.reverse :: splitCharsF sep fuel rem []
    | none => splitCharsF sep fuel rest (c :: acc)

/-- Python text.split(sep) for a non-empty separator. -/
def pySplit (s sep : String) : List String :=
  (splitCharsF sep.data s.data.length s.data []).map String.mk

/-- Embedding of extract_location (scrape_job.py lines 116-143): scan the
dd elements, given by their raw texts in document order, and return the
stripped text of the first one whose stripped text contains a comma or
contains the exact string Remote inside its lowercased form; this is the
literal condition of line 135. -/
def extract_location : List String → Option String
  | [] => none
  | t :: rest =>
    let s := pyTrim t
    if charIn ',' s || containsSub (pyLower s) "Remote" then some s
    else extract_location rest

/-- Embedding of extract_job_title (lines 90-113): each locator either
resolves to one element with the given raw text (some) or fails to resolve
(none, the caught-exception path); the first locator whose element has
non-empty stripped text yields that stripped text. -/
def extract_job_title : List (Option String) → Option String
  | [] => none
  | none :: rest => extract_job_title rest
  | some t :: rest =>
    if pyTrim t = "" then extract_job_title rest else some (pyTrim t)

/-- First element of one selector result list whose stripped text is longer
than 100 characters, as in the inner loop of extract_description
(lines 214-221). -/
def firstLong : List String → Option String
  | [] => none
  | t :: rest =>
    let s := pyTrim t
    if s.length > 100 then some s else firstLong rest

/-- Embedding of extract_description (lines 205-229): each locator yields
the list of raw texts of the elements it resolves to, in document order (an
unresolved locator yields the empty list); the first qualifying element of
the first locator that has one is returned. -/
def extract_description : List (List String) → Option String
  | [] => none
  | sel :: rest =>
    match firstLong sel with
    | some t => some t
    | none => extract_description rest

/-- Python dict assignment on an association list: when the key is present
the value is updated in place (insertion order kept), otherwise the pair is
appended, as in CPython dicts. -/
def dictInsert {α : Type} : List (String × α) → String → α → List (String × α)
  | [], k, v => [(k, v)]
  | (k0, v0) :: rest, k, v =>
    if k0 = k then (k, v) :: rest else (k0, v0) :: dictInsert rest k v

/-- One pass of the inner dt/dd loop of extract_definition_lists
(lines 175-182) over the positionally zipped pairs of one definition list:
a pair is kept only when both stripped texts are non-empty. -/
def insertPairs : List (String × String) → List (String × String) → List (String × String)
  | m, [] => m
  | m, (dt, dd) :: rest =>
    let k := pyTrim dt
    let v := pyTrim dd
    insertPairs (if k ≠ "" ∧ v ≠ "" then dictInsert m k v else m) rest

/-- Accumulating loop of extract_definition_lists (lines 169-182) over the
definition lists of the page, each given by its dt texts and dd texts. -/
def extract_definition_lists_from :
    List (String × String) → List (List String × List String) → List (String × String)
  | m, [] => m
  | m, (dts, dds) :: rest =>
    extract_definition_lists_from (insertPairs m (List.zip dts dds)) rest

/-- Embedding of extract_definition_lists (lines 146-188) in the run where
no exception is raised. -/
def extract_definition_lists (dls : List (List String × List String)) :
    List (String × String) :=
  extract_definition_lists_from [] dls

/-- Embedding of extract_definition_lists in which querying one group (a
none entry) raises inside the try block: the except handler at line 184
catches, and the dict accumulated so far is returned at line 188. -/
def extract_definition_lists_exc :
    List (String × String) → List (Option (List String × List String)) → List (String × String)
  | m, [] => m
  | m, none :: _ => m
  | m, some (dts, dds) :: rest =>
    extract_definition_lists_exc (insertPairs m (List.zip dts dds)) rest

/-- Values produced by json.loads: hierarchical key-value data.  Python
dicts are association lists in insertion order; numbers are modelled as
integers, which is all the claims need. -/
inductive Json where
  | null : Json
  | bool : Bool → Json
  | num : Int → Json
  | str : String → Json
  | arr : List Json → Json
  | obj : List (String × Json) → Json

/-- Single quote character, written via its code point. -/
def sq : String := String.singleton (Char.ofNat 39)

mutual

/-- Python repr of a parsed JSON value (dicts print with single-quoted keys
and comma-space separators, as CPython does). -/
def pyRepr : Json → String
  | .null => "None"
  | .bool true => "True"
  | .bool false => "False"
  | .num n => toString n
  | .str s => sq ++ s ++ sq
  | .arr l => "[" ++ pyReprItems l ++ "]"
  | .obj l => "\x7b" ++ pyReprFields l ++ "\x7d"

/-- Comma-separated reprs of the items of a list value. -/
def pyReprItems : List Json → String
  | [] => ""
  | [x] => pyRepr x
  | x :: y :: rest => pyRepr x ++ ", " ++ pyReprItems (y :: rest)

/-- Comma-separated key-colon-value reprs of the fields of a dict value. -/
def pyReprFields : List (String × Json) → String
  | [] => ""
  | [(k, v)] => sq ++ k ++ sq ++ ": " ++ pyRepr v
  | (k, v) :: y :: rest => sq ++ k ++ sq ++ ": " ++ pyRepr v ++ ", " ++ pyReprFields (y :: rest)

end

/-- Python str() of a parsed JSON value: a string converts to itself, any
other value to its repr. -/
def pyStr : Json → String
  | .str s => s
  | j => pyRepr j

/-- Python truthiness of a parsed JSON value. -/
def jsonTruthy : Json → Bool
  | .null => false
  | .bool b => b
  | .num n => n != 0
  | .str s => s != ""
  | .arr l => !l.isEmpty
  | .obj l => !l.isEmpty

/-- Lookup in an association list, first match (association lists built by
dictInsert have unique keys). -/
def dictFind {α : Type} : List (String × α) → String → Option α
  | [], _ => none
  | (k0, v) :: rest, k => if k0 = k then some v else dictFind rest k

/-- Python d.get(key, default) on a value the code has already checked to
be a dict (the non-dict arm is never reached under those guards). -/
def pyDictGet (j : Json) (key : String) (dflt : Json) : Json :=
  match j with
  | .obj fields => (dictFind fields key).getD dflt
  | _ => dflt

/-- Python v.get(key, default) where v may not be a dict: on a dict the
lookup succeeds, on any other value an AttributeError is raised (error). -/
def pyGetAttr (j : Json) (key : String) (dflt : Json) : Except Unit Json :=
  match j with
  | .obj fields => .ok ((dictFind fields key).getD dflt)
  | _ => .error ()

/-- Character class of the Python strip argument: comma or space. -/
def stripSet (c : Char) : Bool := c == ',' || c == ' '

/-- Strip of the comma-space class on character lists, both ends. -/
def stripChars (l : List Char) : List Char :=
  ((l.dropWhile stripSet).reverse.dropWhile stripSet).reverse

/-- Python strip with the comma-space character class: removes matching
characters from both ends of the string. -/
def pyStrip (s : String) : String := String.mk (stripChars s.data)

/-- The acceptance test of line 258: the parsed value is a dict whose field
at the type key equals the string JobPosting. -/
def isJobPosting : Json → Bool
  | .obj fields =>
    match dictFind fields "@type" with
    | some (.str t) => t == "JobPosting"
    | _ => false
  | _ => false

/-- Location sub-step (lines 266-271): when jobLocation is a dict, read its
address, compose city comma region via the f-string and strip the
comma-space class from both ends; calling get on a non-dict address raises
(false). -/
def locationStep (locd : Json) (sd : List (String × Json)) :
    List (String × Json) × Bool :=
  match locd with
  | .obj lfields =>
    match (dictFind lfields "address").getD (.obj []) with
    | .obj afields =>
      let city := (dictFind afields "addressLocality").getD (.str "")
      let state := (dictFind afields "addressRegion").getD (.str "")
      (dictInsert sd "location" (.str (pyStrip (pyStr city ++ ", " ++ pyStr state))), true)
    | _ => (sd, false)
  | _ => (sd, true)

/-- Processing of the first accepted JobPosting block (lines 259-276),
threading the structured_data dict; the Bool is true when no exception
escaped (an AttributeError from calling get on a non-dict aborts the scan,
but the dict written so far is kept by the outer handler at line 287). -/
def processJobPosting (data : Json) (sd0 : List (String × Json)) :
    List (String × Json) × Bool :=
  let sd1 := dictInsert sd0 "title" (pyDictGet data "title" .null)
  match pyGetAttr (pyDictGet data "hiringOrganization" (.obj [])) "name" .null with
  | .error _ => (sd1, false)
  | .ok comp =>
    let sd2 := dictInsert sd1 "company" comp
    let sd3 := dictInsert sd2 "description" (pyDictGet data "description" .null)
    let sd4 := dictInsert sd3 "posted_date" (pyDictGet data "datePosted" .null)
    let sd5 := dictInsert sd4 "employment_type" (pyDictGet data "employmentType" .null)
    let ls := locationStep (pyDictGet data "jobLocation" (.obj [])) sd5
    if ls.2 then
      let sal := pyDictGet data "baseSalary" (.obj [])
      if jsonTruthy sal then (dictInsert ls.1 "salary" (.str (pyStr sal)), true)
      else (ls.1, true)
    else (ls.1, false)

/-- Embedding of extract_json_ld (lines 232-291): the scripts are given by
the outcome of json.loads on each (none when parsing raised a decode error,
which is caught at line 282 and the loop continues); the first block
accepted by the JobPosting test is processed and the loop breaks; whether
or not the processing raised, the structured_data dict is returned. -/
def extract_json_ld : List (Option Json) → List (String × Json)
  | [] => []
  | none :: rest => extract_json_ld rest
  | some data :: rest =>
    if isJobPosting data then (processJobPosting data []).1
    else extract_json_ld rest

/-- Python job_data.get(key): a missing key yields None. -/
def dictGetJ (m : List (String × Json)) (k : String) : Json :=
  (dictFind m k).getD .null

/-- Loop body of the merge stage (lines 411-413): a structured value is
assigned only when it is truthy and the current record value is falsy. -/
def mergeFrom : List (String × Json) → List (String × Json) → List (String × Json)
  | job, [] => job
  | job, (k, v) :: rest =>
    mergeFrom (if jsonTruthy v && !jsonTruthy (dictGetJ job k) then dictInsert job k v else job) rest

/-- Merge stage (lines 410-413): an empty structured dict is falsy, so the
loop is skipped entirely. -/
def merge_json_ld (job sd : List (String × Json)) : List (String × Json) :=
  if sd.isEmpty then job else mergeFrom job sd

/-- Job-id step (lines 380-383): when the marker segment occurs in the URL,
take what follows it up to the next slash. -/
def parse_job_id (url : String) : Option String :=
  if containsSub url "/jobs/" then
    some (((pySplit ((pySplit url "/jobs/").getD 1 "") "/")).headD "")
  else none

/-- Record skeleton of lines 365-377, in source order. -/
def initial_job_data (url ts : String) : List (String × Json) :=
  [("url", .str url), ("scrape_timestamp", .str ts), ("job_id", .null),
   ("job_title", .null), ("company", .null), ("location", .null),
   ("description", .null), ("posted_date", .null), ("employment_type", .null),
   ("additional_info", .obj []), ("salary", .null)]

/-- Python value of an optional extractor result: None when absent. -/
def optJson : Option String → Json
  | none => .null
  | some s => .str s

/-- The canonical record keys listed in section 3 of the spec. -/
def canonicalKeys : List String :=
  ["url", "scrape_timestamp", "job_id", "job_title", "company", "location",
   "description", "posted_date", "employment_type", "salary", "additional_info"]

/-- Record after the job-id step (lines 380-383): the skeleton, with the
job_id slot overwritten when the marker segment is present. -/
def job_data_after_id (url ts : String) : List (String × Json) :=
  match parse_job_id url with
  | some i => dictInsert (initial_job_data url ts) "job_id" (.str i)
  | none => initial_job_data url ts

/-- Record after the DOM phase (lines 390-399): title, location,
additional_info and description assigned directly, in source order. -/
def dom_phase (url ts : String) (titleSels : List (Option String))
    (dds : List String) (dls : List (List String × List String))
    (descSels : List (List String)) : List (String × Json) :=
  dictInsert
    (dictInsert
      (dictInsert
        (dictInsert (job_data_after_id url ts)
          "job_title" (optJson (extract_job_title titleSels)))
        "location" (optJson (extract_location dds)))
      "additional_info"
        (.obj ((extract_definition_lists dls).map fun p => (p.1, Json.str p.2))))
    "description" (optJson (extract_description descSels))

/-- Record-building pipeline of scrape_icims_job (lines 365-427) after the
page has loaded: the DOM phase writes directly, the structured data is
merged fill-only, and the best-effort full page text is appended when its
capture succeeds (lines 416-420). -/
def scrape_icims_job (url ts : String)
    (titleSels : List (Option String)) (dds : List String)
    (dls : List (List String × List String)) (descSels : List (List String))
    (blocks : List (Option Json)) (fullText : Option String) :
    List (String × Json) :=
  let jd6 := merge_json_ld (dom_phase url ts titleSels dds dls descSels)
    (extract_json_ld blocks)
  match fullText with
  | some t => dictInsert jd6 "full_page_text" (.str t)
  | none => jd6

/-- Failure of one title locator, as the title loop sees it: the locator
did not resolve, or the resolved element has empty stripped text. -/
def titleMiss : Option String → Bool
  | none => true
  | some t => pyTrim t == ""

/-- Keys the structured-data extractor can write. -/
def sdKeys : List String :=
  ["title", "company", "description", "posted_date", "employment_type",
   "location", "salary"]

/-! ## Helper lemmas -/

theorem exc_eq_from (m : List (String × String)) (pre : List (List String × List String))
    (post : List (Option (List String × List String))) :
    extract_definition_lists_exc m (pre.map some ++ none :: post) =
      extract_definition_lists_from m pre := by
  induction pre generalizing m with
  | nil => rfl
  | cons hd tl ih =>
    cases hd with
    | mk dts dds =>
      simpa [extract_definition_lists_exc, extract_definition_lists_from] using ih _

theorem exc_eq_from_total (m : List (String × String))
    (dls : List (List String × List String)) :
    extract_definition_lists_exc m (dls.map some) =
      extract_definition_lists_from m dls := by
  induction dls generalizing m with
  | nil => rfl
  | cons hd tl ih =>
    cases hd with
    | mk dts dds =>
      simpa [extract_definition_lists_exc, extract_definition_lists_from] using ih _

theorem extract_job_title_miss (x : Option String) (l : List (Option String))
    (h : titleMiss x = true) : extract_job_title (x :: l) = extract_job_title l := by
  cases x with
  | none => rfl
  | some t =>
    simp only [titleMiss, beq_iff_eq] at h
    simp [extract_job_title, h]

theorem extract_job_title_all_miss (l : List (Option String))
    (h : ∀ x ∈ l, titleMiss x = true) : extract_job_title l = none := by
  induction l with
  | nil => rfl
  | cons x rest ih =>
    rw [extract_job_title_miss x rest (h x (by simp))]
    exact ih fun y hy => h y (by simp [hy])

theorem firstLong_short (t : String) (l : List String)
    (h : (pyTrim t).length ≤ 100) : firstLong (t :: l) = firstLong l := by
  have h2 : ¬ ((pyTrim t).length > 100) := by omega
  simp [firstLong, h2]

theorem firstLong_all_short (l : List String)
    (h : ∀ t ∈ l, (pyTrim t).length ≤ 100) : firstLong l = none := by
  induction l with
  | nil => rfl
  | cons t rest ih =>
    rw [firstLong_short t rest (h t (by simp))]
    exact ih fun y hy => h y (by simp [hy])

theorem firstLong_hit (pre : List String) (q : String) (rest : List String)
    (hpre : ∀ t ∈ pre, (pyTrim t).length ≤ 100) (hq : (pyTrim q).length > 100) :
    firstLong (pre ++ q :: rest) = some (pyTrim q) := by
  induction pre with
  | nil => simp [firstLong, hq]
  | cons t tl ih =>
    rw [List.cons_append, firstLong_short t _ (hpre t (by simp))]
    exact ih fun y hy => hpre y (by simp [hy])

theorem extract_description_skip (sel : List String) (sels : List (List String))
    (h : firstLong sel = none) :
    extract_description (sel :: sels) = extract_description sels := by
  simp [extract_description, h]

theorem dictFind_insert_self {α : Type} (m : List (String × α)) (k : String) (v : α) :
    dictFind (dictInsert m k v) k = some v := by
  induction m with
  | nil => simp [dictInsert, dictFind]
  | cons p rest ih =>
    cases p with
    | mk k0 v0 =>
      by_cases h : k0 = k
      · simp [dictInsert, dictFind, h]
      · simp [dictInsert, dictFind, h, ih]

theorem dictFind_insert_ne {α : Type} (m : List (String × α)) (k q : String) (v : α)
    (h : q ≠ k) : dictFind (dictInsert m k v) q = dictFind m q := by
  have hkq : ¬ k = q := fun hh => h hh.symm
  induction m with
  | nil => simp [dictInsert, dictFind, hkq]
  | cons p rest ih =>
    cases p with
    | mk k0 v0 =>
      by_cases hk : k0 = k
      · subst hk
        simp [dictInsert, dictFind, hkq]
      · by_cases hq : k0 = q
        · simp [dictInsert, dictFind, hk, hq, h]
        · simp [dictInsert, dictFind, hk, hq, ih]

theorem dictInsert_fresh {α : Type} (m : List (String × α)) (k : String) (v : α)
    (h : k ∉ m.map Prod.fst) : dictInsert m k v = m ++ [(k, v)] := by
  induction m with
  | nil => rfl
  | cons p rest ih =>
    cases p with
    | mk k0 v0 =>
      have hk : ¬ k0 = k := fun hh => h (by simp [hh])
      simp only [dictInsert, if_neg hk, List.cons_append, List.cons.injEq, true_and]
      exact ih fun hh => h (by simp [hh])

theorem mem_keys_dictInsert {α : Type} (m : List (String × α)) (k : String) (v : α)
    (x : String) :
    x ∈ (dictInsert m k v).map Prod.fst ↔ x ∈ m.map Prod.fst ∨ x = k := by
  induction m with
  | nil => simp [dictInsert]
  | cons p rest ih =>
    cases p with
    | mk k0 v0 =>
      by_cases h : k0 = k
      · subst h
        simp [dictInsert]
        tauto
      · simp [dictInsert, h, ih]
        tauto

theorem dictGetJ_insert_self (m : List (String × Json)) (k : String) (v : Json) :
    dictGetJ (dictInsert m k v) k = v := by
  simp [dictGetJ, dictFind_insert_self]

theorem dictGetJ_insert_ne (m : List (String × Json)) (k q : String) (v : Json)
    (h : q ≠ k) : dictGetJ (dictInsert m k v) q = dictGetJ m q := by
  simp [dictGetJ, dictFind_insert_ne _ _ _ _ h]

theorem mergeFrom_keep (sd : List (String × Json)) :
    ∀ (job : List (String × Json)) (k : String),
    jsonTruthy (dictGetJ job k) = true →
    dictGetJ (mergeFrom job sd) k = dictGetJ job k := by
  induction sd with
  | nil =>
    intro job k _
    rfl
  | cons p rest ih =>
    intro job k h
    cases p with
    | mk k0 v0 =>
      by_cases hk : k0 = k
      · have hcond : (jsonTruthy v0 && !jsonTruthy (dictGetJ job k0)) = false := by
          rw [hk, h]
          simp
        rw [show mergeFrom job ((k0, v0) :: rest) =
            mergeFrom (if (jsonTruthy v0 && !jsonTruthy (dictGetJ job k0)) = true
              then dictInsert job k0 v0 else job) rest from rfl,
          hcond, if_neg (by simp)]
        exact ih job k h
      · have h2 : dictGetJ (if (jsonTruthy v0 && !jsonTruthy (dictGetJ job k0)) = true
            then dictInsert job k0 v0 else job) k = dictGetJ job k := by
          split
          · exact dictGetJ_insert_ne job k0 k v0 fun hh => hk hh.symm
          · rfl
        simp only [mergeFrom]
        rw [ih _ k (by rw [h2]; exact h), h2]

theorem mergeFrom_fill (sd : List (String × Json)) :
    ∀ (job : List (String × Json)) (k : String) (v : Json), (k, v) ∈ sd →
    (sd.map Prod.fst).Nodup → jsonTruthy v = true →
    jsonTruthy (dictGetJ job k) = false →
    dictGetJ (mergeFrom job sd) k = v := by
  induction sd with
  | nil =>
    intro job k v hmem
    cases hmem
  | cons p rest ih =>
    intro job k v hmem hnd hv hj
    cases p with
    | mk k0 v0 =>
      simp only [List.map_cons, List.nodup_cons] at hnd
      rcases List.mem_cons.1 hmem with heq | hmem2
      · cases heq
        have hins : dictGetJ (dictInsert job k v) k = v := dictGetJ_insert_self job k v
        have hcond : (jsonTruthy v && !jsonTruthy (dictGetJ job k)) = true := by
          rw [hv, hj]
          rfl
        rw [show mergeFrom job ((k, v) :: rest) =
            mergeFrom (if (jsonTruthy v && !jsonTruthy (dictGetJ job k)) = true
              then dictInsert job k v else job) rest from rfl,
          hcond, if_pos rfl]
        rw [mergeFrom_keep rest _ k (by rw [hins]; exact hv), hins]
      · have hk : k ≠ k0 := by
          intro hh
          subst hh
          exact hnd.1 (List.mem_map.2 ⟨(k, v), hmem2, rfl⟩)
        have h2 : dictGetJ (if (jsonTruthy v0 && !jsonTruthy (dictGetJ job k0)) = true
            then dictInsert job k0 v0 else job) k = dictGetJ job k := by
          split
          · exact dictGetJ_insert_ne job k0 k v0 hk
          · rfl
        simp only [mergeFrom]
        exact ih _ k v hmem2 hnd.2 hv (by rw [h2]; exact hj)

theorem insertPairs_nodup_app (pairs : List (String × String)) :
    ∀ m : List (String × String),
    (∀ p ∈ pairs, pyTrim p.1 ≠ "" ∧ pyTrim p.2 ≠ "") →
    ((pairs.map fun p => pyTrim p.1).Nodup) →
    (∀ p ∈ pairs, pyTrim p.1 ∉ m.map Prod.fst) →
    insertPairs m pairs = m ++ pairs.map fun p => (pyTrim p.1, pyTrim p.2) := by
  induction pairs with
  | nil =>
    intro m _ _ _
    simp [insertPairs]
  | cons p rest ih =>
    intro m hne hnd hfresh
    cases p with
    | mk dt dd =>
      have hp := hne (dt, dd) (by simp)
      simp only [List.map_cons, List.nodup_cons] at hnd
      have hfresh2 : ∀ q ∈ rest, pyTrim q.1 ∉
          (m ++ [(pyTrim dt, pyTrim dd)]).map Prod.fst := by
        intro q hq
        simp only [List.map_append, List.mem_append]
        rintro (hin | hin)
        · exact hfresh q (by simp [hq]) hin
        · have heq : pyTrim q.1 = pyTrim dt := by simpa using hin
          exact hnd.1 (by rw [← heq]; exact List.mem_map.2 ⟨q, hq, rfl⟩)
      rw [show insertPairs m ((dt, dd) :: rest) =
          insertPairs (if pyTrim dt ≠ "" ∧ pyTrim dd ≠ "" then
            dictInsert m (pyTrim dt) (pyTrim dd) else m) rest from rfl,
        if_pos hp, dictInsert_fresh m _ _ (hfresh (dt, dd) (by simp)),
        ih _ (fun q hq => hne q (by simp [hq])) hnd.2 hfresh2]
      simp

/-! ## Claim theorems -/

/-- Claim C2 (refuting evaluation): an element whose stripped text is
Remote - US has no comma and does match the word remote
case-insensitively, so the claim says it qualifies; the code tests for the
capitalized needle inside the lowercased text, which can never occur, so
extract_location skips the element and returns not-found. -/
theorem C2_remote_literal_bug :
    extract_location ["Remote - US"] = none ∧
    charIn ',' (pyTrim "Remote - US") = false ∧
    containsSub (pyLower (pyTrim "Remote - US")) "remote" = true := by
  decide

/-- Claim C9: job_id is the path segment right after the marker segment
/jobs/ (the URL of main() yields 5417), and a URL without the marker gives
an absent job_id, not an error. -/
theorem C9_job_id_parsing :
    parse_job_id "https://careers-aeieng.icims.com/jobs/5417/engineering-data-analyst/job?mobile=false&width=1920&height=500&bga=true&needsRedirect=false&jan1offset=330&jun1offset=330"
      = some "5417" ∧
    ∀ url : String, containsSub url "/jobs/" = false → parse_job_id url = none := by
  refine ⟨by decide, ?_⟩
  intro url h
  simp [parse_job_id, h]

/-- Witness for C9 at a concrete marker-free URL. -/
theorem C9_job_id_parsing_witness :
    containsSub "https://example.com/careers" "/jobs/" = false ∧
    parse_job_id "https://example.com/careers" = none :=
  ⟨by decide, C9_job_id_parsing.2 "https://example.com/careers" (by decide)⟩

/-- Claim C10: when querying a group raises partway through the scan, the
except handler returns the pairs accumulated before the failure (a partial
result), and with no failure the same accumulation is returned; in every
case the function yields a mapping, never an error. -/
theorem C10_partial_result :
    (∀ (pre : List (List String × List String))
       (post : List (Option (List String × List String))),
        extract_definition_lists_exc [] (pre.map some ++ none :: post) =
          extract_definition_lists pre) ∧
    (∀ dls : List (List String × List String),
        extract_definition_lists_exc [] (dls.map some) =
          extract_definition_lists dls) :=
  ⟨fun pre post => exc_eq_from [] pre post, fun dls => exc_eq_from_total [] dls⟩

/-- Claim C4: for both ordered-locator extractors (title and description),
if the first K strategies each fail — an unresolved locator behaving
exactly like an empty-text or unqualifying result — and strategy K+1
yields a qualifying match, that match is returned; only exhaustion of all
locators yields not-found. -/
theorem C4_fallback_order :
    (∀ (pre : List (Option String)) (t : String) (post : List (Option String)),
        (∀ x ∈ pre, titleMiss x = true) → pyTrim t ≠ "" →
        extract_job_title (pre ++ some t :: post) = some (pyTrim t)) ∧
    (∀ sels : List (Option String), (∀ x ∈ sels, titleMiss x = true) →
        extract_job_title sels = none) ∧
    (∀ (pre : List (List String)) (q : String) (qrest : List String)
       (post : List (List String)),
        (∀ sel ∈ pre, ∀ x ∈ sel, (pyTrim x).length ≤ 100) →
        (pyTrim q).length > 100 →
        extract_description (pre ++ (q :: qrest) :: post) = some (pyTrim q)) ∧
    (∀ sels : List (List String),
        (∀ sel ∈ sels, ∀ x ∈ sel, (pyTrim x).length ≤ 100) →
        extract_description sels = none) := by
  refine ⟨?_, ?_, ?_, ?_⟩
  · intro pre t post hpre ht
    induction pre with
    | nil => simp [extract_job_title, ht]
    | cons x tl ih =>
      rw [List.cons_append, extract_job_title_miss x _ (hpre x (by simp))]
      exact ih fun y hy => hpre y (by simp [hy])
  · exact extract_job_title_all_miss
  · intro pre q qrest post hpre hq
    induction pre with
    | nil =>
      have : firstLong (q :: qrest) = some (pyTrim q) := by simp [firstLong, hq]
      simp [extract_description, this]
    | cons sel tl ih =>
      rw [List.cons_append, extract_description_skip sel _
        (firstLong_all_short sel fun x hx => hpre sel (by simp) x hx)]
      exact ih fun s hs x hx => hpre s (by simp [hs]) x hx
  · intro sels h
    induction sels with
    | nil => rfl
    | cons sel tl ih =>
      rw [extract_description_skip sel _
        (firstLong_all_short sel fun x hx => h sel (by simp) x hx)]
      exact ih fun s hs x hx => h s (by simp [hs]) x hx

/-- Witness for C4 at concrete locator lists: an unresolved locator, then
an empty-text one, then the qualifying title; a wholly failing title list;
a description list whose first locator only has a short element; and a
wholly failing description list. -/
theorem C4_fallback_order_witness :
    extract_job_title [none, some "  ", some " Data Analyst "] = some "Data Analyst" ∧
    extract_job_title [none, some "  "] = none ∧
    extract_description [["tiny"], (String.mk (List.replicate 101 'a') :: [])] =
      some (String.mk (List.replicate 101 'a')) ∧
    extract_description [[], ["tiny"]] = none := by
  refine ⟨?_, ?_, ?_, ?_⟩
  · have h := C4_fallback_order.1 [none, some "  "] " Data Analyst " []
      (by decide) (by decide)
    simpa using h
  · exact C4_fallback_order.2.1 [none, some "  "] (by decide)
  · have h := C4_fallback_order.2.2.1 [["tiny"]] (String.mk (List.replicate 101 'a'))
      [] [] (by decide) (by decide)
    simpa using h
  · exact C4_fallback_order.2.2.2 [[], ["tiny"]] (by decide)

/-- Claim C5: description acceptance is strictly length-gated at 100
characters of stripped text — a candidate of stripped length at most 100
is rejected and scanning continues, a candidate of stripped length 101
from the same locator is accepted — and among the elements matched by the
first locator yielding any qualifying element, the first qualifying one in
document order is returned. -/
theorem C5_description_gate :
    (∀ (t : String) (l : List String), (pyTrim t).length ≤ 100 →
        firstLong (t :: l) = firstLong l) ∧
    (∀ (t : String) (l : List String), (pyTrim t).length = 101 →
        firstLong (t :: l) = some (pyTrim t)) ∧
    (∀ (failsels : List (List String)) (shortpre : List String) (q : String)
       (rest : List String) (post : List (List String)),
        (∀ sel ∈ failsels, ∀ x ∈ sel, (pyTrim x).length ≤ 100) →
        (∀ x ∈ shortpre, (pyTrim x).length ≤ 100) → (pyTrim q).length > 100 →
        extract_description (failsels ++ (shortpre ++ q :: rest) :: post) =
          some (pyTrim q)) := by
  refine ⟨firstLong_short, ?_, ?_⟩
  · intro t l h
    have : (pyTrim t).length > 100 := by omega
    simp [firstLong, this]
  · intro failsels shortpre q rest post hfail hshort hq
    induction failsels with
    | nil =>
      have : firstLong (shortpre ++ q :: rest) = some (pyTrim q) :=
        firstLong_hit shortpre q rest hshort hq
      simp [extract_description, this]
    | cons sel tl ih =>
      rw [List.cons_append, extract_description_skip sel _
        (firstLong_all_short sel fun x hx => hfail sel (by simp) x hx)]
      exact ih fun s hs x hx => hfail s (by simp [hs]) x hx

/-- Witness for C5: a 100-character candidate is rejected in favour of the
later qualifying one, a 101-character candidate is accepted, and the first
qualifying element of the first qualifying locator wins. -/
theorem C5_description_gate_witness :
    firstLong (String.mk (List.replicate 100 'b') :: [String.mk (List.replicate 101 'b')]) =
      firstLong [String.mk (List.replicate 101 'b')] ∧
    firstLong (String.mk (List.replicate 101 'b') :: []) =
      some (String.mk (List.replicate 101 'b')) ∧
    extract_description [["x"], ["y", String.mk (List.replicate 101 'b'),
        String.mk (List.replicate 102 'c')]] =
      some (String.mk (List.replicate 101 'b')) := by
  refine ⟨?_, ?_, ?_⟩
  · exact C5_description_gate.1 (String.mk (List.replicate 100 'b')) _ (by decide)
  · have h := C5_description_gate.2.1 (String.mk (List.replicate 101 'b')) [] (by decide)
    simpa using h
  · have h := C5_description_gate.2.2 [["x"]] ["y"] (String.mk (List.replicate 101 'b'))
      [String.mk (List.replicate 102 'c')] [] (by decide) (by decide) (by decide)
    simpa using h

/-- Claim C3: the merge stage assigns a structured-data key into the record
only if the current record value is absent or empty — a truthy DOM value is
kept, an absent/empty record value paired with a non-empty structured value
takes the structured value, and merging an empty structured result leaves
the record unchanged. -/
theorem C3_merge_fill_only :
    (∀ job : List (String × Json), merge_json_ld job [] = job) ∧
    (∀ (job sd : List (String × Json)) (k : String),
        jsonTruthy (dictGetJ job k) = true →
        dictGetJ (merge_json_ld job sd) k = dictGetJ job k) ∧
    (∀ (job sd : List (String × Json)) (k : String) (v : Json),
        (k, v) ∈ sd → (sd.map Prod.fst).Nodup → jsonTruthy v = true →
        jsonTruthy (dictGetJ job k) = false →
        dictGetJ (merge_json_ld job sd) k = v) := by
  refine ⟨fun job => rfl, ?_, ?_⟩
  · intro job sd k h
    cases sd with
    | nil => rfl
    | cons p rest =>
      rw [show merge_json_ld job (p :: rest) = mergeFrom job (p :: rest) from rfl]
      exact mergeFrom_keep (p :: rest) job k h
  · intro job sd k v hmem hnd hv hj
    cases sd with
    | nil => cases hmem
    | cons p rest =>
      rw [show merge_json_ld job (p :: rest) = mergeFrom job (p :: rest) from rfl]
      exact mergeFrom_fill (p :: rest) job k v hmem hnd hv hj

/-- Witness for C3 at the concrete records of the spec examples: the DOM
location Austin, TX survives a structured Remote, the absent company is
filled with Acme Corp, and merging an empty structured result is the
identity. -/
theorem C3_merge_fill_only_witness :
    dictGetJ (merge_json_ld [("location", Json.str "Austin, TX"), ("company", Json.null)]
        [("location", Json.str "Remote"), ("company", Json.str "Acme Corp")]) "location" =
      Json.str "Austin, TX" ∧
    dictGetJ (merge_json_ld [("location", Json.str "Austin, TX"), ("company", Json.null)]
        [("location", Json.str "Remote"), ("company", Json.str "Acme Corp")]) "company" =
      Json.str "Acme Corp" ∧
    merge_json_ld [("location", Json.str "Austin, TX"), ("company", Json.null)] [] =
      [("location", Json.str "Austin, TX"), ("company", Json.null)] := by
  refine ⟨?_, ?_, ?_⟩
  · exact C3_merge_fill_only.2.1
      [("location", Json.str "Austin, TX"), ("company", Json.null)]
      [("location", Json.str "Remote"), ("company", Json.str "Acme Corp")]
      "location" rfl
  · exact C3_merge_fill_only.2.2
      [("location", Json.str "Austin, TX"), ("company", Json.null)]
      [("location", Json.str "Remote"), ("company", Json.str "Acme Corp")]
      "company" (Json.str "Acme Corp")
      (List.mem_cons_of_mem _ (List.mem_singleton.2 rfl)) (by decide) rfl rfl
  · exact C3_merge_fill_only.1 _

/-- Claim C6: labels pair positionally with values within each group,
truncating at the shorter list; a pair is retained only if both stripped
texts are non-empty; pairs accumulate across groups in document order with
a later equal label overwriting the earlier value; the empty mapping is a
valid result. -/
theorem C6_kv_pairing :
    (∀ dts dds : List String,
        (∀ p ∈ List.zip dts dds, pyTrim p.1 ≠ "" ∧ pyTrim p.2 ≠ "") →
        (((List.zip dts dds).map fun p => pyTrim p.1).Nodup) →
        extract_definition_lists [(dts, dds)] =
          (List.zip dts dds).map (fun p => (pyTrim p.1, pyTrim p.2)) ∧
        (extract_definition_lists [(dts, dds)]).length =
          min dts.length dds.length) ∧
    (∀ k v : String, pyTrim k = "" ∨ pyTrim v = "" →
        extract_definition_lists [([k], [v])] = []) ∧
    (∀ a x b y : String, pyTrim a = pyTrim b → pyTrim a ≠ "" → pyTrim x ≠ "" →
        pyTrim y ≠ "" →
        extract_definition_lists [([a], [x]), ([b], [y])] =
          [(pyTrim a, pyTrim y)]) ∧
    extract_definition_lists [] = [] := by
  refine ⟨?_, ?_, ?_, rfl⟩
  · intro dts dds hne hnd
    have he : extract_definition_lists [(dts, dds)] =
        insertPairs [] (List.zip dts dds) := rfl
    have h2 := insertPairs_nodup_app (List.zip dts dds) [] hne hnd (by simp)
    refine ⟨by rw [he, h2]; simp, ?_⟩
    rw [he, h2]
    simp [List.length_zip]
  · intro k v h
    have hneg : ¬ (pyTrim k ≠ "" ∧ pyTrim v ≠ "") := by tauto
    show insertPairs [] [(k, v)] = []
    rw [show insertPairs [] [(k, v)] =
        insertPairs (if pyTrim k ≠ "" ∧ pyTrim v ≠ "" then
          dictInsert [] (pyTrim k) (pyTrim v) else []) [] from rfl,
      if_neg hneg]
    rfl
  · intro a x b y hab ha hx hy
    have hb : pyTrim b ≠ "" := by rw [← hab]; exact ha
    have h1 : insertPairs [] [(a, x)] = [(pyTrim a, pyTrim x)] := by
      rw [show insertPairs [] [(a, x)] =
          insertPairs (if pyTrim a ≠ "" ∧ pyTrim x ≠ "" then
            dictInsert [] (pyTrim a) (pyTrim x) else []) [] from rfl,
        if_pos ⟨ha, hx⟩]
      rfl
    show insertPairs (insertPairs [] [(a, x)]) [(b, y)] = [(pyTrim a, pyTrim y)]
    rw [h1,
      show insertPairs [(pyTrim a, pyTrim x)] [(b, y)] =
        insertPairs (if pyTrim b ≠ "" ∧ pyTrim y ≠ "" then
          dictInsert [(pyTrim a, pyTrim x)] (pyTrim b) (pyTrim y)
        else [(pyTrim a, pyTrim x)]) [] from rfl,
      if_pos ⟨hb, hy⟩]
    show dictInsert [(pyTrim a, pyTrim x)] (pyTrim b) (pyTrim y) =
      [(pyTrim a, pyTrim y)]
    simp [dictInsert, hab]

/-- Witness for C6 at concrete groups: three labels and two values give
exactly the two positional pairs, a blank label drops the pair, a second
group redefining a label overwrites it, and no groups give the empty
mapping. -/
theorem C6_kv_pairing_witness :
    extract_definition_lists
        [(["Department", "Level ", "Extra"], [" Engineering", "Senior"])] =
      [("Department", "Engineering"), ("Level", "Senior")] ∧
    (extract_definition_lists
        [(["Department", "Level ", "Extra"], [" Engineering", "Senior"])]).length = 2 ∧
    extract_definition_lists [([" "], ["v"])] = [] ∧
    extract_definition_lists [(["Dept"], ["Eng"]), (["Dept "], ["Sales"])] =
      [("Dept", "Sales")] ∧
    extract_definition_lists [] = [] := by
  refine ⟨?_, ?_, ?_, ?_, ?_⟩
  · exact ((C6_kv_pairing.1 ["Department", "Level ", "Extra"]
      [" Engineering", "Senior"] (by decide) (by decide)).1).trans (by decide)
  · exact ((C6_kv_pairing.1 ["Department", "Level ", "Extra"]
      [" Engineering", "Senior"] (by decide) (by decide)).2).trans (by decide)
  · exact C6_kv_pairing.2.1 " " "v" (Or.inl (by decide))
  · exact (C6_kv_pairing.2.2.1 "Dept" "Eng" "Dept " "Sales"
      (by decide) (by decide) (by decide) (by decide)).trans (by decide)
  · exact C6_kv_pairing.2.2.2

theorem extract_json_ld_skip (pre post : List (Option Json)) :
    extract_json_ld (pre ++ none :: post) = extract_json_ld (pre ++ post) := by
  induction pre with
  | nil => rfl
  | cons b rest ih =>
    cases b with
    | none => simpa [extract_json_ld] using ih
    | some j =>
      by_cases h : isJobPosting j = true
      · simp [extract_json_ld, h]
      · simp only [Bool.not_eq_true] at h
        simp [extract_json_ld, h, ih]

/-- Claim C7: while scanning structured-data blocks, a malformed block is
skipped and scanning continues; the first block whose declared type is
JobPosting is accepted and every later block is ignored; with no qualifying
block, or no blocks at all, the empty mapping is returned. -/
theorem C7_block_scan :
    (∀ pre post : List (Option Json),
        extract_json_ld (pre ++ none :: post) = extract_json_ld (pre ++ post)) ∧
    (∀ (j : Json) (rest : List (Option Json)), isJobPosting j = true →
        extract_json_ld (some j :: rest) = extract_json_ld [some j]) ∧
    (∀ blocks : List (Option Json),
        (∀ j : Json, some j ∈ blocks → isJobPosting j = false) →
        extract_json_ld blocks = []) ∧
    extract_json_ld [] = [] := by
  refine ⟨extract_json_ld_skip, ?_, ?_, rfl⟩
  · intro j rest h
    simp [extract_json_ld, h]
  · intro blocks h
    induction blocks with
    | nil => rfl
    | cons b rest ih =>
      cases b with
      | none =>
        rw [show extract_json_ld (none :: rest) = extract_json_ld rest from rfl]
        exact ih fun j hj => h j (by simp [hj])
      | some j =>
        have hj : isJobPosting j = false := h j (by simp)
        simp only [extract_json_ld, hj]
        rw [if_neg (by simp)]
        exact ih fun j2 hj2 => h j2 (by simp [hj2])

/-- Witness for C7 at concrete block lists: a malformed first block is
skipped, the first JobPosting block shadows a later one, and a list whose
parsed blocks are never JobPosting yields the empty mapping. -/
theorem C7_block_scan_witness :
    extract_json_ld [none, some (Json.obj [("@type", Json.str "JobPosting")]),
        some (Json.obj [("@type", Json.str "JobPosting"), ("title", Json.str "Other")])] =
      extract_json_ld [some (Json.obj [("@type", Json.str "JobPosting")])] ∧
    extract_json_ld [none, some (Json.str "x"),
        some (Json.obj [("@type", Json.str "Organization")])] = [] := by
  constructor
  · exact (C7_block_scan.1 []
      [some (Json.obj [("@type", Json.str "JobPosting")]),
       some (Json.obj [("@type", Json.str "JobPosting"), ("title", Json.str "Other")])]).trans
      (C7_block_scan.2.1 (Json.obj [("@type", Json.str "JobPosting")])
        [some (Json.obj [("@type", Json.str "JobPosting"), ("title", Json.str "Other")])]
        (by decide))
  · refine C7_block_scan.2.2.1 _ ?_
    intro j hj
    simp only [List.mem_cons, List.not_mem_nil, or_false] at hj
    rcases hj with h | h | h
    · cases h
    · cases h
      rfl
    · cases h
      rfl

theorem keys_locationStep (locd : Json) (sd : List (String × Json)) (x : String)
    (hx : x ∈ (locationStep locd sd).1.map Prod.fst) :
    x ∈ sd.map Prod.fst ∨ x = "location" := by
  unfold locationStep at hx
  split at hx
  · split at hx
    · rcases (mem_keys_dictInsert _ _ _ _).1 hx with h | h
      · exact Or.inl h
      · exact Or.inr h
    · exact Or.inl hx
  · exact Or.inl hx

theorem keys_sd_chain (sd0 : List (String × Json)) (t c d p e : Json) (x : String)
    (hx : x ∈ (dictInsert (dictInsert (dictInsert (dictInsert
      (dictInsert sd0 "title" t) "company" c) "description" d)
      "posted_date" p) "employment_type" e).map Prod.fst) :
    x ∈ sd0.map Prod.fst ∨ x ∈ sdKeys := by
  simp only [mem_keys_dictInsert] at hx
  simp only [sdKeys, List.mem_cons, List.not_mem_nil, or_false]
  tauto

theorem keys_processJobPosting (data : Json) (sd0 : List (String × Json)) (x : String)
    (hx : x ∈ (processJobPosting data sd0).1.map Prod.fst) :
    x ∈ sd0.map Prod.fst ∨ x ∈ sdKeys := by
  unfold processJobPosting at hx
  split at hx
  · rcases (mem_keys_dictInsert _ _ _ _).1 hx with h | h
    · exact Or.inl h
    · subst h
      exact Or.inr (by simp [sdKeys])
  · dsimp only at hx
    split at hx
    · split at hx
      · rcases (mem_keys_dictInsert _ _ _ _).1 hx with h | h
        · rcases keys_locationStep _ _ x h with h2 | h2
          · exact keys_sd_chain _ _ _ _ _ _ x h2
          · subst h2
            exact Or.inr (by simp [sdKeys])
        · subst h
          exact Or.inr (by simp [sdKeys])
      · rcases keys_locationStep _ _ x hx with h2 | h2
        · exact keys_sd_chain _ _ _ _ _ _ x h2
        · subst h2
          exact Or.inr (by simp [sdKeys])
    · rcases keys_locationStep _ _ x hx with h2 | h2
      · exact keys_sd_chain _ _ _ _ _ _ x h2
      · subst h2
        exact Or.inr (by simp [sdKeys])

theorem keys_extract_json_ld (blocks : List (Option Json)) (x : String)
    (hx : x ∈ (extract_json_ld blocks).map Prod.fst) : x ∈ sdKeys := by
  induction blocks with
  | nil => simp [extract_json_ld] at hx
  | cons b rest ih =>
    cases b with
    | none => exact ih (by simpa [extract_json_ld] using hx)
    | some j =>
      rw [show extract_json_ld (some j :: rest) =
          if isJobPosting j = true then (processJobPosting j []).1
          else extract_json_ld rest from rfl] at hx
      by_cases h : isJobPosting j = true
      · rw [if_pos h] at hx
        rcases keys_processJobPosting j [] x hx with h2 | h2
        · simp at h2
        · exact h2
      · rw [if_neg h] at hx
        exact ih hx

theorem keys_mergeFrom (sd : List (String × Json)) :
    ∀ (job : List (String × Json)) (x : String),
    x ∈ (mergeFrom job sd).map Prod.fst →
    x ∈ job.map Prod.fst ∨ x ∈ sd.map Prod.fst := by
  induction sd with
  | nil =>
    intro job x hx
    exact Or.inl hx
  | cons p rest ih =>
    intro job x hx
    cases p with
    | mk k v =>
      rw [show mergeFrom job ((k, v) :: rest) =
          mergeFrom (if (jsonTruthy v && !jsonTruthy (dictGetJ job k)) = true
            then dictInsert job k v else job) rest from rfl] at hx
      rcases ih _ x hx with h | h
      · by_cases hc : (jsonTruthy v && !jsonTruthy (dictGetJ job k)) = true
        · rw [if_pos hc] at h
          rcases (mem_keys_dictInsert _ _ _ _).1 h with h2 | h2
          · exact Or.inl h2
          · exact Or.inr (by simp [h2])
        · rw [if_neg hc] at h
          exact Or.inl h
      · exact Or.inr (by simp [h])

theorem keys_mergeFrom_super (sd : List (String × Json)) :
    ∀ (job : List (String × Json)) (x : String),
    x ∈ job.map Prod.fst → x ∈ (mergeFrom job sd).map Prod.fst := by
  induction sd with
  | nil =>
    intro job x hx
    exact hx
  | cons p rest ih =>
    intro job x hx
    cases p with
    | mk k v =>
      rw [show mergeFrom job ((k, v) :: rest) =
          mergeFrom (if (jsonTruthy v && !jsonTruthy (dictGetJ job k)) = true
            then dictInsert job k v else job) rest from rfl]
      apply ih
      by_cases hc : (jsonTruthy v && !jsonTruthy (dictGetJ job k)) = true
      · rw [if_pos hc]
        exact (mem_keys_dictInsert _ _ _ _).2 (Or.inl hx)
      · rw [if_neg hc]
        exact hx

theorem keys_job_data_after_id (url ts : String) (x : String) :
    x ∈ (job_data_after_id url ts).map Prod.fst ↔ x ∈ canonicalKeys := by
  unfold job_data_after_id
  cases parse_job_id url with
  | none =>
    show x ∈ (initial_job_data url ts).map Prod.fst ↔ x ∈ canonicalKeys
    simp only [initial_job_data, canonicalKeys, List.map_cons, List.map_nil,
      List.mem_cons, List.not_mem_nil, or_false]
    tauto
  | some i =>
    show x ∈ (dictInsert (initial_job_data url ts) "job_id" (.str i)).map Prod.fst ↔
      x ∈ canonicalKeys
    rw [mem_keys_dictInsert]
    simp only [initial_job_data, canonicalKeys, List.map_cons, List.map_nil,
      List.mem_cons, List.not_mem_nil, or_false]
    tauto

theorem keys_dom_phase (url ts : String) (titleSels : List (Option String))
    (dds : List String) (dls : List (List String × List String))
    (descSels : List (List String)) (x : String) :
    x ∈ (dom_phase url ts titleSels dds dls descSels).map Prod.fst ↔
      x ∈ canonicalKeys := by
  unfold dom_phase
  simp only [mem_keys_dictInsert, keys_job_data_after_id]
  simp only [canonicalKeys, List.mem_cons, List.not_mem_nil, or_false]
  tauto

/-- Claim C1 (refuting evaluation): the structured-data extractor writes
the key title, which is not a CanonicalJobRecord key (the record key is
job_title), so a successful run whose markup carries a JSON-LD title ends
with the extra key title in the merged record. -/
theorem C1_title_key_counterexample :
    "title" ∈ (extract_json_ld
        [some (Json.obj [("@type", Json.str "JobPosting"),
          ("title", Json.str "Engineer")])]).map Prod.fst ∧
    "title" ∉ canonicalKeys ∧
    "title" ∈ (scrape_icims_job "https://x.example/a" "2025-10-06T00:00:00"
        [] [] [] []
        [some (Json.obj [("@type", Json.str "JobPosting"),
          ("title", Json.str "Engineer")])] none).map Prod.fst := by
  decide

/-- Claim C1 (amended): every mapping returned by the structured-data
extractor uses only the keys title, company, description, posted_date,
employment_type, location and salary — all CanonicalJobRecord keys except
title — and the record of a successful run contains every section-3 key
and no key beyond those except possibly title and the raw full-text
fallback field. -/
theorem C1_record_keys :
    (∀ blocks : List (Option Json), ∀ x ∈ (extract_json_ld blocks).map Prod.fst,
        x ∈ sdKeys) ∧
    (∀ (url ts : String) (titleSels : List (Option String)) (dds : List String)
       (dls : List (List String × List String)) (descSels : List (List String))
       (blocks : List (Option Json)) (fullText : Option String),
        (∀ x ∈ canonicalKeys, x ∈ (scrape_icims_job url ts titleSels dds dls
            descSels blocks fullText).map Prod.fst) ∧
        (∀ x ∈ (scrape_icims_job url ts titleSels dds dls descSels blocks
            fullText).map Prod.fst,
          x ∈ canonicalKeys ++ ["title", "full_page_text"])) := by
  constructor
  · intro blocks x hx
    exact keys_extract_json_ld blocks x hx
  · intro url ts titleSels dds dls descSels blocks fullText
    constructor
    · intro x hx
      have hdom : x ∈ (dom_phase url ts titleSels dds dls descSels).map Prod.fst :=
        (keys_dom_phase url ts titleSels dds dls descSels x).2 hx
      have hmerge : x ∈ (merge_json_ld (dom_phase url ts titleSels dds dls descSels)
          (extract_json_ld blocks)).map Prod.fst := by
        unfold merge_json_ld
        split
        · exact hdom
        · exact keys_mergeFrom_super _ _ x hdom
      unfold scrape_icims_job
      cases fullText with
      | none => exact hmerge
      | some t =>
        dsimp only
        exact (mem_keys_dictInsert _ _ _ _).2 (Or.inl hmerge)
    · intro x hx
      unfold scrape_icims_job at hx
      have step : ∀ y : String,
          y ∈ (merge_json_ld (dom_phase url ts titleSels dds dls descSels)
            (extract_json_ld blocks)).map Prod.fst →
          y ∈ canonicalKeys ++ ["title", "full_page_text"] := by
        intro y hy
        have hsplit : y ∈ (dom_phase url ts titleSels dds dls descSels).map Prod.fst ∨
            y ∈ (extract_json_ld blocks).map Prod.fst := by
          unfold merge_json_ld at hy
          split at hy
          · exact Or.inl hy
          · exact keys_mergeFrom _ _ y hy
        rcases hsplit with h | h
        · exact List.mem_append.2
            (Or.inl ((keys_dom_phase url ts titleSels dds dls descSels y).1 h))
        · have hsd := keys_extract_json_ld blocks y h
          simp only [sdKeys, List.mem_cons, List.not_mem_nil, or_false] at hsd
          simp only [canonicalKeys, List.mem_append, List.mem_cons,
            List.not_mem_nil, or_false]
          tauto
      cases fullText with
      | none => exact step x hx
      | some t =>
        dsimp only at hx
        rcases (mem_keys_dictInsert _ _ _ _).1 hx with h | h
        · exact step x h
        · subst h
          simp [canonicalKeys]

/-- Witness for C1 (amended) at concrete inputs: the extractor key title
lies in the structured key set, and the record of a concrete empty-page
run contains url and only sanctioned keys. -/
theorem C1_record_keys_witness :
    "title" ∈ sdKeys ∧
    "url" ∈ (scrape_icims_job "u" "t" [] [] [] [] [] none).map Prod.fst ∧
    "url" ∈ canonicalKeys ++ ["title", "full_page_text"] :=
  ⟨C1_record_keys.1 [some (Json.obj [("@type", Json.str "JobPosting"),
      ("title", Json.str "Engineer")])] "title" (by decide),
   (C1_record_keys.2 "u" "t" [] [] [] [] [] none).1 "url" (by decide),
   (C1_record_keys.2 "u" "t" [] [] [] [] [] none).2 "url" (by decide)⟩

/-- Claim C8 (refuting evaluation): with locality Austin and region TX
followed by a space — neither part empty — the claim composes the location
as the raw template text ending in that space, but the code applies the
Python strip with the comma-space argument to BOTH ends of the composed
string and stores Austin, TX; the two values differ. -/
theorem C8_trailing_space_counterexample :
    dictFind (extract_json_ld [some (Json.obj
      [("@type", Json.str "JobPosting"),
       ("jobLocation", Json.obj [("address", Json.obj
         [("addressLocality", Json.str "Austin"),
          ("addressRegion", Json.str "TX ")])])])]) "location" =
      some (Json.str "Austin, TX") ∧
    "Austin" ++ ", " ++ "TX " ≠ "Austin, TX" := by
  constructor
  · rfl
  · decide

/-- Claim C8 (amended): from the first accepted JobPosting block the
extractor takes the title, the name nested under the organization
sub-object as company, the description, the posting date, the employment
type, the location composed as city comma region and then stripped of all
leading and trailing comma and space characters (the Python strip with a
comma-space argument — in particular the separator is removed when one
part is empty), and the salary stringified verbatim from whatever
baseSalary value is present, with no normalization (and no salary key when
the salary value is empty or missing). -/
theorem C8_structured_block_fields (tJ cJ dJ dpJ etJ salJ : Json)
    (city region : String) :
    extract_json_ld [some (Json.obj
      [("@type", Json.str "JobPosting"), ("title", tJ),
       ("hiringOrganization", Json.obj [("name", cJ)]),
       ("description", dJ), ("datePosted", dpJ), ("employmentType", etJ),
       ("jobLocation", Json.obj [("address", Json.obj
         [("addressLocality", Json.str city), ("addressRegion", Json.str region)])]),
       ("baseSalary", salJ)])] =
    [("title", tJ), ("company", cJ), ("description", dJ), ("posted_date", dpJ),
     ("employment_type", etJ),
     ("location", Json.str (pyStrip (city ++ ", " ++ region)))] ++
    (if jsonTruthy salJ = true
      then [("salary", Json.str (pyStr salJ))] else []) := by
  have hdef : extract_json_ld [some (Json.obj
      [("@type", Json.str "JobPosting"), ("title", tJ),
       ("hiringOrganization", Json.obj [("name", cJ)]),
       ("description", dJ), ("datePosted", dpJ), ("employmentType", etJ),
       ("jobLocation", Json.obj [("address", Json.obj
         [("addressLocality", Json.str city), ("addressRegion", Json.str region)])]),
       ("baseSalary", salJ)])] =
      (if jsonTruthy salJ = true
        then ([("title", tJ), ("company", cJ), ("description", dJ),
               ("posted_date", dpJ), ("employment_type", etJ),
               ("location", Json.str (pyStrip (city ++ ", " ++ region))),
               ("salary", Json.str (pyStr salJ))], true)
        else ([("title", tJ), ("company", cJ), ("description", dJ),
               ("posted_date", dpJ), ("employment_type", etJ),
               ("location", Json.str (pyStrip (city ++ ", " ++ region)))], true)).1 := rfl
  cases hsal : jsonTruthy salJ with
  | true =>
    rw [hdef, hsal]
    simp
  | false =>
    rw [hdef, hsal]
    simp

/-- Witness for C8 (amended) at a fully concrete JobPosting block whose
region carries a trailing space: the location strips to Austin, TX and the
salary dict is stringified verbatim. -/
theorem C8_structured_block_fields_witness :
    extract_json_ld [some (Json.obj
      [("@type", Json.str "JobPosting"), ("title", Json.str "Data Analyst"),
       ("hiringOrganization", Json.obj [("name", Json.str "AEI")]),
       ("description", Json.str "d"), ("datePosted", Json.str "2025-10-01"),
       ("employmentType", Json.str "Full-time"),
       ("jobLocation", Json.obj [("address", Json.obj
         [("addressLocality", Json.str "Austin"), ("addressRegion", Json.str "TX ")])]),
       ("baseSalary", Json.obj [("value", Json.num 5)])])] =
      [("title", Json.str "Data Analyst"), ("company", Json.str "AEI"),
       ("description", Json.str "d"), ("posted_date", Json.str "2025-10-01"),
       ("employment_type", Json.str "Full-time"),
       ("location", Json.str "Austin, TX"),
       ("salary", Json.str ("\x7b" ++ sq ++ "value" ++ sq ++ ": 5\x7d"))] := by
  have h := C8_structured_block_fields (Json.str "Data Analyst") (Json.str "AEI")
    (Json.str "d") (Json.str "2025-10-01") (Json.str "Full-time")
    (Json.obj [("value", Json.num 5)]) "Austin" "TX "
  exact h.trans (by rfl)

end Scrape
